import Mathlib

/-!
Verification development for the presentation-generation pipeline in
`ppt_generator.py` (class `PowerPointGenerator`).

Modelling conventions:
* External collaborators (the generative model, the search provider, HTTP
  transport, the filesystem clock, the document writer's save call) are
  modelled as explicit oracle values passed to the embedded functions;
  a `raise` of an external call is an `Except.error` value.
* Python text is modelled as `String` / `List Char`; for the filename
  sanitiser (which is specified through regular-expression character
  classes) strings are modelled as lists of Unicode code points
  (`List Nat`), covering the ASCII fragment of the classes `[^a-zA-Z0-9\s]`
  and `\s` that the properties exercise.
* Python exceptions that the repository code itself raises and catches are
  modelled by `Except` / `Option` results.
* Filesystem state relevant to temporary image files is modelled as the
  list of existing temporary-file names, threaded explicitly.
-/

namespace PPTGen

/-! ### Python string helpers -/

/-- Whitespace characters removed by Python's `str.strip()` (ASCII fragment). -/
def isWsChar (c : Char) : Bool :=
  c = ' ' ∨ c = '\t' ∨ c = '\n' ∨ c = '\r' ∨ c = '\x0b' ∨ c = '\x0c'

/-- Model of Python's `str.strip()`: drop leading and trailing whitespace. -/
def pyStrip (l : List Char) : List Char :=
  ((l.dropWhile isWsChar).reverse.dropWhile isWsChar).reverse

/-- Model of Python's `str.title()` on ASCII text (used as `topic.title()` in
`_get_fallback_content`): a letter following a non-letter is uppercased, a
letter following a letter is lowercased, other characters pass through. -/
def pyTitleAux : Bool → List Char → List Char
  | _, [] => []
  | prevAlpha, c :: cs =>
    if c.isAlpha then
      (if prevAlpha then c.toLower else c.toUpper) :: pyTitleAux true cs
    else
      c :: pyTitleAux false cs

/-- Model of Python's `str.title()` on ASCII text. -/
def pyTitle (s : String) : String :=
  String.mk (pyTitleAux false s.data)

/-! ### The content data model

`PresentationContent` is the record shape that the prompt of
`generate_llm_content` requests and that `_get_fallback_content` returns:
`title_slide{title, subtitle}`, `overview{title, content}`,
`key_points : list of {title, content}`, `conclusion{title, content}`. -/

/-- A titled bullet list (the shape of `overview`, each `key_points` entry and
`conclusion` in the content dictionary). -/
structure SlideContent where
  title : String
  content : List String
deriving Repr, DecidableEq

/-- The `title_slide` entry of the content dictionary. -/
structure TitleSlideContent where
  title : String
  subtitle : String
deriving Repr, DecidableEq

/-- The full content dictionary shape. -/
structure PresentationContent where
  title_slide : TitleSlideContent
  overview : SlideContent
  key_points : List SlideContent
  conclusion : SlideContent
deriving Repr, DecidableEq

/-- Embedding of `_get_fallback_content`: the deterministic template content
returned when AI generation fails, mirroring the dictionary literal in the
source field by field. -/
def _get_fallback_content (topic : String) : PresentationContent :=
  { title_slide :=
      { title := "Comprehensive Analysis: " ++ pyTitle topic
        subtitle := topic }
    overview :=
      { title := "Overview"
        content :=
          [ "Introduction to " ++ topic
          , "Current state and significance"
          , "Key areas of focus"
          , "Expected outcomes and insights" ] }
    key_points :=
      [ { title := "Background & Context"
          content :=
            [ "Historical development and evolution"
            , "Current market or industry status"
            , "Key stakeholders and participants"
            , "Regulatory and policy framework"
            , "Global trends and patterns" ] }
      , { title := "Challenges & Obstacles"
          content :=
            [ "Technical limitations and barriers"
            , "Economic and financial constraints"
            , "Regulatory and compliance issues"
            , "Market adoption challenges"
            , "Competition and market dynamics" ] }
      , { title := "Innovations & Solutions"
          content :=
            [ "Emerging technologies and approaches"
            , "Best practices and methodologies"
            , "Case studies and success stories"
            , "Investment and funding opportunities"
            , "Partnership and collaboration models" ] }
      , { title := "Future Outlook & Impact"
          content :=
            [ "Projected growth and development"
            , "Potential market opportunities"
            , "Long-term implications and effects"
            , "Recommendations for stakeholders"
            , "Next steps and action items" ] } ]
    conclusion :=
      { title := "Conclusion"
        content :=
          [ topic ++ " represents a significant opportunity"
          , "Key challenges must be addressed strategically"
          , "Innovation and collaboration are essential"
          , "The future looks promising with proper execution" ] } }

/-! ### JSON extraction from raw model text

`generate_llm_content` extracts a JSON candidate with `re.search` applied to
the dot-all pattern matching one opening brace, then any characters, then one
closing brace, all greedily.  This leftmost-longest match is the span from
the first opening brace that is followed by some closing brace, up to the
last closing brace of the whole text. -/

/-- Index of the last occurrence of `c` in `s`, if any. -/
def lastIdxOf (c : Char) (s : List Char) : Option Nat :=
  match s.reverse.findIdx? (· = c) with
  | none => none
  | some k => some (s.length - 1 - k)

/-- Embedding of the greedy dot-all brace-to-brace `re.search` in
`generate_llm_content`: the match runs from the first opening brace to
the last closing brace of the text (when the former precedes the latter),
`none` when the pattern does not match. -/
def greedyBraceMatch (s : List Char) : Option (List Char) :=
  match s.findIdx? (· = '{'), lastIdxOf '}' s with
  | some i, some j => if i < j then some ((s.drop i).take (j - i + 1)) else none
  | _, _ => none

/-- Scanner described by the spec's words: having consumed an opening brace
(current nesting depth `d ≥ 1`), keep consuming characters, tracking depth,
and return the consumed span once depth returns to zero. -/
def scanBalanced : Nat → List Char → Option (List Char)
  | _, [] => none
  | d, c :: cs =>
    if c = '{' then (scanBalanced (d + 1) cs).map (fun r => c :: r)
    else if c = '}' then
      if d = 1 then some [c]
      else (scanBalanced (d - 1) cs).map (fun r => c :: r)
    else (scanBalanced d cs).map (fun r => c :: r)

/-- Modelled from the spec: the balanced-bracket extractor the spec prescribes
("track nesting depth, return the first span that closes at depth zero"),
starting from the first opening brace of the text.  This is the comparison
point for the refinement claim about the extractor; the source code instead
uses the greedy regular-expression match `greedyBraceMatch`. -/
def balancedExtract : List Char → Option (List Char)
  | [] => none
  | c :: cs =>
    if c = '{' then (scanBalanced 1 cs).map (fun r => c :: r)
    else balancedExtract cs

/-! ### JSON values and a model of `json.loads`

The parser below models Python's `json.loads` on the JSON fragment relevant
here: objects, arrays, double-quoted strings without escape sequences,
integer literals, `true`, `false`, `null`.  Inputs outside this fragment
(floats, escapes) are treated as parse failures. -/

/-- JSON values, the result type of the modelled `json.loads`. -/
inductive JVal where
  | null
  | bool (b : Bool)
  | num (n : Int)
  | str (s : String)
  | arr (xs : List JVal)
  | obj (fields : List (String × JVal))
deriving Repr, Inhabited

/-- Skip JSON insignificant whitespace. -/
def skipWs : List Char → List Char
  | [] => []
  | c :: cs => if c = ' ' ∨ c = '\t' ∨ c = '\n' ∨ c = '\r' then skipWs cs else c :: cs

/-- Parse the body of a double-quoted string (opening quote already
consumed); escape sequences are out of the modelled fragment. -/
def parseStrAux : List Char → Option (List Char × List Char)
  | [] => none
  | c :: cs =>
    if c = '"' then some ([], cs)
    else if c = '\\' then none
    else (parseStrAux cs).map (fun p => (c :: p.1, p.2))

/-- Decimal digits to a natural number. -/
def digitsToNat (ds : List Char) : Nat :=
  ds.foldl (fun acc c => acc * 10 + (c.toNat - 48)) 0

/-- Parse an integer literal. -/
def parseNum (s : List Char) : Option (JVal × List Char) :=
  let p : Bool × List Char := match s with
    | '-' :: t => (true, t)
    | _ => (false, s)
  let ds := p.2.takeWhile Char.isDigit
  if ds = [] then none
  else
    let rest := p.2.dropWhile Char.isDigit
    let n : Int := Int.ofNat (digitsToNat ds)
    some (JVal.num (if p.1 then -n else n), rest)

/-- Parse the literals `true`, `false`, `null`. -/
def parseLitAt (s : List Char) : Option (JVal × List Char) :=
  if "true".data.isPrefixOf s then some (JVal.bool true, s.drop 4)
  else if "false".data.isPrefixOf s then some (JVal.bool false, s.drop 5)
  else if "null".data.isPrefixOf s then some (JVal.null, s.drop 4)
  else none

mutual

/-- Parse one JSON value (fuel-bounded recursion; the fuel passed by
`jsonParse` is ample for any input). -/
def parseVal : Nat → List Char → Option (JVal × List Char)
  | 0, _ => none
  | fuel + 1, s =>
    match skipWs s with
    | [] => none
    | c :: cs =>
      if c = '{' then
        match skipWs cs with
        | '}' :: r => some (JVal.obj [], r)
        | r => (parseMembers fuel r).map (fun p => (JVal.obj p.1, p.2))
      else if c = '[' then
        match skipWs cs with
        | ']' :: r => some (JVal.arr [], r)
        | r => (parseItems fuel r).map (fun p => (JVal.arr p.1, p.2))
      else if c = '"' then
        (parseStrAux cs).map (fun p => (JVal.str (String.mk p.1), p.2))
      else if c = 't' ∨ c = 'f' ∨ c = 'n' then parseLitAt (c :: cs)
      else parseNum (c :: cs)

/-- Parse the members of an object after its opening brace (at least one
member; the empty object is handled in `parseVal`). -/
def parseMembers : Nat → List Char → Option (List (String × JVal) × List Char)
  | 0, _ => none
  | fuel + 1, s =>
    match skipWs s with
    | '"' :: cs =>
      match parseStrAux cs with
      | none => none
      | some (key, r1) =>
        match skipWs r1 with
        | ':' :: r2 =>
          match parseVal fuel r2 with
          | none => none
          | some (v, r3) =>
            match skipWs r3 with
            | ',' :: r4 =>
              (parseMembers fuel r4).map
                (fun p => ((String.mk key, v) :: p.1, p.2))
            | '}' :: r4 => some ([(String.mk key, v)], r4)
            | _ => none
        | _ => none
    | _ => none

/-- Parse the items of an array after its opening bracket (at least one
item; the empty array is handled in `parseVal`). -/
def parseItems : Nat → List Char → Option (List JVal × List Char)
  | 0, _ => none
  | fuel + 1, s =>
    match parseVal fuel s with
    | none => none
    | some (v, r) =>
      match skipWs r with
      | ',' :: r2 => (parseItems fuel r2).map (fun p => (v :: p.1, p.2))
      | ']' :: r2 => some ([v], r2)
      | _ => none

end

/-- Model of `json.loads` on the fragment described above: parse one value
and require that only whitespace remains. -/
def jsonParse (s : List Char) : Option JVal :=
  match parseVal (2 * s.length + 2) s with
  | some (v, rest) => if skipWs rest = [] then some v else none
  | none => none

/-! ### The PresentationContent schema over JSON values -/

/-- Is this JSON value a string? -/
def isStrVal : JVal → Bool
  | JVal.str _ => true
  | _ => false

/-- Is this JSON value an array of strings? -/
def isStrListVal : JVal → Bool
  | JVal.arr xs => xs.all isStrVal
  | _ => false

/-- Does this JSON value have the `SlideContent` shape
(`title` string, `content` array of strings)? -/
def isSlideContentVal : JVal → Bool
  | JVal.obj fs =>
    (match fs.lookup "title" with
     | some v => isStrVal v
     | none => false) &&
    (match fs.lookup "content" with
     | some v => isStrListVal v
     | none => false)
  | _ => false

/-- Modelled from the spec's data model: a JSON value satisfies the
`PresentationContent` schema when it is an object with the four required
top-level keys, `title_slide` carrying string `title`/`subtitle`, `overview`
and `conclusion` of `SlideContent` shape, and `key_points` an array of
exactly 4 `SlideContent`-shaped entries. -/
def schemaValidJson : JVal → Bool
  | JVal.obj fs =>
    (match fs.lookup "title_slide" with
     | some (JVal.obj ts) =>
       (match ts.lookup "title" with
        | some v => isStrVal v
        | none => false) &&
       (match ts.lookup "subtitle" with
        | some v => isStrVal v
        | none => false)
     | _ => false) &&
    (match fs.lookup "overview" with
     | some v => isSlideContentVal v
     | none => false) &&
    (match fs.lookup "key_points" with
     | some (JVal.arr kps) => kps.length = 4 && kps.all isSlideContentVal
     | _ => false) &&
    (match fs.lookup "conclusion" with
     | some v => isSlideContentVal v
     | none => false)
  | _ => false

/-- The JSON value of a `SlideContent` (the dictionary
`\x7b"title": ..., "content": [...]\x7d`). -/
def SlideContent.toJVal (sc : SlideContent) : JVal :=
  JVal.obj
    [ ("title", JVal.str sc.title)
    , ("content", JVal.arr (sc.content.map JVal.str)) ]

/-- The JSON value of a `PresentationContent` record: the dictionary that the
Python functions pass around. -/
def PresentationContent.toJVal (pc : PresentationContent) : JVal :=
  JVal.obj
    [ ("title_slide", JVal.obj
        [ ("title", JVal.str pc.title_slide.title)
        , ("subtitle", JVal.str pc.title_slide.subtitle) ])
    , ("overview", pc.overview.toJVal)
    , ("key_points", JVal.arr (pc.key_points.map SlideContent.toJVal))
    , ("conclusion", pc.conclusion.toJVal) ]

/-! ### Content synthesis -/

/-- Embedding of `generate_llm_content`.  The external model call is an
oracle: `Except.error ()` when `self.model.generate_content` raises (or the
model was never configured), `Except.ok text` for the raw response text.
The function strips the text, applies the greedy brace match, and parses the
span with `json.loads`; a successful parse is returned as-is (the source
performs no schema validation), while a missing match (`ValueError`), a parse
failure, or a model exception all fall back to `_get_fallback_content`. -/
def generate_llm_content (topic : String) (modelResp : Except Unit (List Char)) : JVal :=
  match modelResp with
  | Except.error _ => (_get_fallback_content topic).toJVal
  | Except.ok text =>
    match greedyBraceMatch (pyStrip text) with
    | none => (_get_fallback_content topic).toJVal
    | some span =>
      match jsonParse span with
      | some v => v
      | none => (_get_fallback_content topic).toJVal

/-! ### Web search -/

/-- Embedding of `perform_web_search`.  The provider call is an oracle:
`Except.error ()` when `GoogleSearch(...).get_dict()` raises, `Except.ok none`
when the result dictionary has no `organic_results` key, and
`Except.ok (some l)` for a result list where each entry carries its optional
`snippet` field.  The source keeps the snippets of the results that have one,
in order, truncated to 5, and returns `[]` on any failure. -/
def perform_web_search (resp : Except Unit (Option (List (Option String)))) : List String :=
  match resp with
  | Except.error _ => []
  | Except.ok none => []
  | Except.ok (some results) => (results.filterMap id).take 5

/-! ### Image search, download and the temporary-file lifecycle -/

/-- Oracle describing the external world for one image resolution:
the image-search provider response (`Except.error ()` when the provider call
raises; `Except.ok none` when the result dictionary has no `images_results`
key; `Except.ok (some l)` for the result list, each entry carrying its
optional `original` URL field), the HTTP download status (`none` when
`requests.get` raises a `RequestException`, e.g. a network error or timeout),
whether streaming the body raises mid-download, and the fresh name that
`tempfile.NamedTemporaryFile` would allocate. -/
structure ImageEnv where
  searchResp : Except Unit (Option (List (Option String)))
  dlStatus : Option Nat
  streamRaises : Bool
  fresh : String

/-- Embedding of `perform_image_search`: the `original` field of the first
entry of `images_results` when that list exists and is non-empty, `none`
otherwise and on any provider exception. -/
def perform_image_search (resp : Except Unit (Option (List (Option String)))) : Option String :=
  match resp with
  | Except.error _ => none
  | Except.ok none => none
  | Except.ok (some []) => none
  | Except.ok (some (r :: _)) => r

/-- Embedding of `get_image_from_url`, tracking the temporary file: returns
the path handed back (first component) and whether a temporary file was
created (second component).  On a request exception `none` is returned with
no file created; on a non-200 status `none` with no file; on status 200 the
temporary file is created first, then either the streamed download completes
(the path is returned) or a mid-stream `RequestException` is caught and
`none` is returned — the already-created file is not removed. -/
def get_image_from_url (_url : String) (e : ImageEnv) : Option String × Bool :=
  match e.dlStatus with
  | none => (none, false)
  | some code =>
    if code = 200 then
      if e.streamRaises then (none, true) else (some e.fresh, true)
    else (none, false)

/-- The image path handed to the slide builder for one key point, as computed
in `create_presentation`: `get_image_from_url(image_url) if image_url else
None`. -/
def resolveImage (e : ImageEnv) : Option String :=
  match perform_image_search e.searchResp with
  | none => none
  | some url => (get_image_from_url url e).1

/-- Filesystem effect of the download step of one key point: the path handed
on, and the temporary-file list after the step. -/
def imageFilesAfterDownload (e : ImageEnv) (fs : List String) : Option String × List String :=
  match perform_image_search e.searchResp with
  | none => (none, fs)
  | some url =>
    match get_image_from_url url e with
    | (p, true) => (p, e.fresh :: fs)
    | (p, false) => (p, fs)

/-- Filesystem effect of `_add_content_slide`: whatever the embed attempt
does (`embedRaises` is the caught `add_picture` exception flag), the
`finally` block unlinks the passed image path when it exists; without a path
nothing is touched. -/
def add_content_slide_files (_embedRaises : Bool) (image_path : Option String)
    (fs : List String) : List String :=
  match image_path with
  | none => fs
  | some p => fs.erase p

/-- Filesystem effect of the whole slide-building step for one key point in
`create_presentation`: image search, download, then `_add_content_slide`. -/
def key_point_files (e : ImageEnv) (embedRaises : Bool) (fs : List String) : List String :=
  let r := imageFilesAfterDownload e fs
  add_content_slide_files embedRaises r.1 r.2

/-! ### Slide assembly -/

/-- One slide of the assembled document: the title slide built by
`_add_title_slide`, or a content slide built by `_add_content_slide` with a
title, bullet list and optional embedded image. -/
inductive Slide where
  | titleSlide (title subtitle : String)
  | contentSlide (title : String) (bullets : List String) (image : Option String)
deriving Repr, DecidableEq

/-- Embedding of `create_presentation`: title slide, overview slide, one
content slide per `key_points` entry in order (each with the image resolved
for its title through the per-query oracle `resolve`), then the conclusion
slide. -/
def create_presentation (resolve : String → Option String)
    (content : PresentationContent) : List Slide :=
  Slide.titleSlide content.title_slide.title content.title_slide.subtitle ::
  Slide.contentSlide content.overview.title content.overview.content none ::
  (content.key_points.map
      (fun kp => Slide.contentSlide kp.title kp.content (resolve kp.title)) ++
    [Slide.contentSlide content.conclusion.title content.conclusion.content none])

/-! ### Filename sanitisation (`save_presentation`)

The sanitiser is specified by regular-expression character classes, so here
strings are lists of Unicode code points (`List Nat`); the modelled classes
are the ASCII fragments of `[^a-zA-Z0-9\s]` and `\s`.  Code point 95 is the
underscore. -/

/-- ASCII code points matched by the regex class `\s`. -/
def isSpaceCode (n : Nat) : Bool :=
  n = 32 ∨ n = 9 ∨ n = 10 ∨ n = 13 ∨ n = 11 ∨ n = 12

/-- ASCII letters (`a-zA-Z`). -/
def isAlphaCode (n : Nat) : Bool :=
  (65 ≤ n ∧ n ≤ 90) ∨ (97 ≤ n ∧ n ≤ 122)

/-- ASCII digits (`0-9`). -/
def isDigitCode (n : Nat) : Bool :=
  48 ≤ n ∧ n ≤ 57

/-- Code points kept by the first `re.sub` of `save_presentation`, whose
character class is everything but letters, digits and whitespace. -/
def keepCode (n : Nat) : Bool :=
  isAlphaCode n || isDigitCode n || isSpaceCode n

/-- Python `str.lower()` on a code point (ASCII fragment). -/
def lowerCode (n : Nat) : Nat :=
  if 65 ≤ n ∧ n ≤ 90 then n + 32 else n

/-- Replace every maximal run of whitespace by a single underscore, the
effect of the second `re.sub` of `save_presentation`; the flag records
whether the previous character belonged to a whitespace run. -/
def collapseAux : Bool → List Nat → List Nat
  | _, [] => []
  | prevSpace, n :: ns =>
    if isSpaceCode n then
      (if prevSpace then [] else [95]) ++ collapseAux true ns
    else n :: collapseAux false ns

/-- Replace every maximal run of whitespace by a single underscore. -/
def collapseSpaces (l : List Nat) : List Nat :=
  collapseAux false l

/-- Embedding of the topic sanitisation in `save_presentation`: strip all
characters but letters, digits and whitespace; collapse whitespace runs to a
single underscore; lowercase. -/
def sanitize (t : List Nat) : List Nat :=
  (collapseSpaces (t.filter keepCode)).map lowerCode

/-- Code points of a `String`. -/
def strCodes (s : String) : List Nat :=
  s.data.map Char.toNat

/-- The filename `save_presentation` derives:
`presentation_<sanitized topic>_<timestamp>.pptx` (as code points, the
timestamp string `ts` supplied by the clock oracle). -/
def mkFilename (topic : String) (ts : List Nat) : List Nat :=
  strCodes "presentation_" ++ sanitize (strCodes topic) ++ 95 :: ts ++ strCodes ".pptx"

/-- Embedding of `save_presentation`: derive the filename, then attempt the
external `prs.save(filename)` call (oracle `saveOutcome`); on success return
the filename, on an exception log and re-raise it. -/
def save_presentation (topic : String) (ts : List Nat)
    (saveOutcome : Except Unit Unit) : Except Unit (List Nat) :=
  match saveOutcome with
  | Except.ok _ => Except.ok (mkFilename topic ts)
  | Except.error e => Except.error e

/-! ### The pipeline -/

/-- Read a `SlideContent` out of a JSON value the way `_add_content_slide`'s
callers access it (`["title"]`, `["content"]`, each bullet a string);
any failing access is a raised `KeyError`/`TypeError`, i.e. `Except.error`. -/
def decodeSlideContent : JVal → Except Unit SlideContent
  | JVal.obj fs =>
    match fs.lookup "title", fs.lookup "content" with
    | some (JVal.str t), some (JVal.arr xs) =>
      match xs.mapM (fun v => match v with
        | JVal.str s => some s
        | _ => none) with
      | some bullets => Except.ok ⟨t, bullets⟩
      | none => Except.error ()
    | _, _ => Except.error ()
  | _ => Except.error ()

/-- Read the full content dictionary the way `create_presentation` and
`_add_title_slide` access it; any failing access raises, i.e.
`Except.error`.  (The source never checks the length of `key_points`.) -/
def decodeContent : JVal → Except Unit PresentationContent
  | JVal.obj fs =>
    match fs.lookup "title_slide", fs.lookup "overview",
        fs.lookup "key_points", fs.lookup "conclusion" with
    | some (JVal.obj ts), some ov, some (JVal.arr kps), some concl =>
      (match ts.lookup "title", ts.lookup "subtitle" with
       | some (JVal.str t), some (JVal.str st) =>
         match decodeSlideContent ov, kps.mapM decodeSlideContent,
             decodeSlideContent concl with
         | Except.ok o, Except.ok ks, Except.ok c =>
           Except.ok ⟨⟨t, st⟩, o, ks, c⟩
         | _, _, _ => Except.error ()
       | _, _ => Except.error ())
    | _, _, _, _ => Except.error ()
  | _ => Except.error ()

/-- Oracle describing the external world for one `generate_presentation`
call: the two credentials read at construction, the web-search provider
response, the generative-model response, the per-query image environment,
the outcome of the external save call, and the clock's timestamp string. -/
structure Env where
  gemini_key : Option String
  serpapi_key : Option String
  searchResp : Except Unit (Option (List (Option String)))
  modelResp : Except Unit (List Char)
  imgEnv : String → ImageEnv
  saveOutcome : Except Unit Unit
  ts : List Nat

/-- Embedding of `generate_presentation` with a provided topic: the
credential check (a `ValueError` raised inside the `try`), then web search,
content synthesis, assembly (whose dictionary accesses may raise on
schema-invalid content) and persistence.  Every exception reaching the
orchestrator's `except` clauses is converted to the sentinel `none`; a
successful run returns `some filename`. -/
def generate_presentation (env : Env) (topic : String) : Option (List Nat) :=
  if env.gemini_key.isNone || env.serpapi_key.isNone then none
  else
    let _snippets := perform_web_search env.searchResp
    match decodeContent (generate_llm_content topic env.modelResp) with
    | Except.error _ => none
    | Except.ok pc =>
      let _slides :=
        create_presentation (fun q => resolveImage (env.imgEnv q)) pc
      match save_presentation topic env.ts env.saveOutcome with
      | Except.ok fn => some fn
      | Except.error _ => none

/-! ### Concrete example inputs used by counterexamples and witnesses -/

/-- Raw model text `\x7b"key_points": []\x7d`: well-formed JSON whose shape
violates the content schema. -/
def exC1Raw : List Char :=
  '{' :: ('"' :: ("key_points".data ++ ('"' :: ':' :: ' ' :: '[' :: ']' :: '}' :: [])))

/-- Raw model text `\x7ba: 1\x7d note \x7bb\x7d`: a complete brace span
followed by explanatory text containing further braces. -/
def exC2 : List Char :=
  '{' :: ("a: 1".data ++ ('}' :: (" note ".data ++ ('{' :: ("b".data ++ ('}' :: []))))))

/-- A nested JSON object span, `\x7ba: \x7bx: 1\x7d\x7d`. -/
def exNested : List Char :=
  '{' :: ("a: ".data ++ ('{' :: ("x: 1".data ++ ('}' :: ('}' :: [])))))

/-- Image environment where the download starts (status 200, temporary file
created) but streaming the body raises mid-download. -/
def exLeakEnv : ImageEnv :=
  { searchResp := Except.ok (some [some "u"])
    dlStatus := some 200
    streamRaises := true
    fresh := "tmp_img" }

/-- Image environment of a fully successful download. -/
def exOkEnv : ImageEnv :=
  { searchResp := Except.ok (some [some "u2"])
    dlStatus := some 200
    streamRaises := false
    fresh := "tmp_ok" }

/-- Image environment whose image search yields an empty result list and
whose download would answer 404. -/
def exImgEnvNoResults : ImageEnv :=
  { searchResp := Except.ok (some [])
    dlStatus := some 404
    streamRaises := false
    fresh := "tw" }

/-- Pipeline environment whose save call raises. -/
def exEnvSaveFail : Env :=
  { gemini_key := some "g"
    serpapi_key := some "s"
    searchResp := Except.ok none
    modelResp := Except.error ()
    imgEnv := fun _ => exImgEnvNoResults
    saveOutcome := Except.error ()
    ts := [] }

/-- Pipeline environment with the Gemini credential missing. -/
def exEnvNoKeys : Env :=
  { gemini_key := none
    serpapi_key := some "s"
    searchResp := Except.ok none
    modelResp := Except.error ()
    imgEnv := fun _ => exImgEnvNoResults
    saveOutcome := Except.ok ()
    ts := [] }

/-! ## Theorems -/

/-- C7: `resolveImage` hands no path to the slide builder when the image
search raises, when the response lacks the `images_results` field, when the
result list is empty, when the download status is not 200, or when the
download request raises (network error or timeout). -/
theorem C7_resolveImage_none (e : ImageEnv) :
    (e.searchResp = Except.error () → resolveImage e = none) ∧
    (e.searchResp = Except.ok none → resolveImage e = none) ∧
    (e.searchResp = Except.ok (some []) → resolveImage e = none) ∧
    (∀ code, e.dlStatus = some code → code ≠ 200 → resolveImage e = none) ∧
    (e.dlStatus = none → resolveImage e = none) := by
  refine ⟨?_, ?_, ?_, ?_, ?_⟩
  · intro h; simp [resolveImage, perform_image_search, h]
  · intro h; simp [resolveImage, perform_image_search, h]
  · intro h; simp [resolveImage, perform_image_search, h]
  · intro code hst hne
    unfold resolveImage
    cases hs : perform_image_search e.searchResp with
    | none => rfl
    | some url => simp [get_image_from_url, hst, hne]
  · intro hst
    unfold resolveImage
    cases hs : perform_image_search e.searchResp with
    | none => rfl
    | some url => simp [get_image_from_url, hst]

/-- Witness for C7 at a concrete environment with an empty image-result
list. -/
theorem C7_witness : resolveImage exImgEnvNoResults = none :=
  (C7_resolveImage_none exImgEnvNoResults).2.2.1 rfl

/-- C8: the fallback content has exactly 4 key points with the fixed
headings, each carrying 5 bullets, and for topic "AI Ethics" its title
contains (here: equals) "Comprehensive Analysis: Ai Ethics".  Determinism in
the topic is structural: `_get_fallback_content` is a pure function of the
topic string. -/
theorem C8_fallback_content (topic : String) :
    (_get_fallback_content topic).key_points.length = 4 ∧
    (_get_fallback_content topic).key_points.map SlideContent.title =
      [ "Background & Context", "Challenges & Obstacles"
      , "Innovations & Solutions", "Future Outlook & Impact" ] ∧
    (_get_fallback_content topic).key_points.map (fun kp => kp.content.length) =
      [5, 5, 5, 5] ∧
    (_get_fallback_content "AI Ethics").title_slide.title =
      "Comprehensive Analysis: Ai Ethics" ∧
    "Comprehensive Analysis: Ai Ethics".data <:+:
      (_get_fallback_content "AI Ethics").title_slide.title.data :=
  ⟨rfl, rfl, rfl, rfl, List.infix_refl _⟩

/-- C9: the web search returns exactly the first `min 5 k` of the `k`
snippet fields actually present in the provider's results — a prefix of
those snippets of length `min 5 k` that agrees with them position by
position (so provider order is preserved, snippet-less results are skipped,
and the sequence is truncated to at most 5) — and returns the empty list
when the provider raises or the `organic_results` field is absent. -/
theorem C9_web_search (l : List (Option String)) :
    (perform_web_search (Except.ok (some l))).length = min 5 (l.filterMap id).length ∧
    (perform_web_search (Except.ok (some l))).length ≤ 5 ∧
    perform_web_search (Except.ok (some l)) <+: l.filterMap id ∧
    (∀ i, i < 5 →
      (perform_web_search (Except.ok (some l)))[i]? = (l.filterMap id)[i]?) ∧
    perform_web_search (Except.error ()) = [] ∧
    perform_web_search (Except.ok none) = [] := by
  refine ⟨?_, ?_, ?_, ?_, rfl, rfl⟩
  · simp only [perform_web_search]
    exact List.length_take 5 (l.filterMap id)
  · simp only [perform_web_search]
    exact List.length_take_le 5 (l.filterMap id)
  · simp only [perform_web_search]
    exact List.take_prefix 5 (l.filterMap id)
  · intro i hi
    simp only [perform_web_search]
    exact List.getElem?_take_of_lt hi

/-- Witness for C9 applying the theorem at a concrete result list with a
snippet-less middle entry: position 1 of the output is the second present
snippet. -/
theorem C9_witness :
    (perform_web_search (Except.ok (some [some "s1", none, some "s2"])))[1]? =
      some "s2" :=
  (C9_web_search [some "s1", none, some "s2"]).2.2.2.1 1 (by omega)

/-- C6: `save_presentation` re-raises every save exception, and the pipeline
then yields the no-result sentinel rather than a filename: a save failure is
never converted into a success result. -/
theorem C6_save_failure_propagates (topic : String) (ts : List Nat) (env : Env)
    (h : env.saveOutcome = Except.error ()) :
    save_presentation topic ts env.saveOutcome = Except.error () ∧
    generate_presentation env topic = none := by
  constructor
  · rw [h]; rfl
  · unfold generate_presentation
    by_cases hk : (env.gemini_key.isNone || env.serpapi_key.isNone) = true
    · simp [hk]
    · rcases hdec : decodeContent (generate_llm_content topic env.modelResp) with e | pc <;>
        simp [hk, hdec, save_presentation, h]

/-- Witness for C6 at a concrete environment whose save call raises. -/
theorem C6_witness : generate_presentation exEnvSaveFail "AI" = none :=
  (C6_save_failure_propagates "AI" [] exEnvSaveFail rfl).2

/-- C10: `generate_presentation` never raises: missing credentials and
a save failure both yield the sentinel `none`, and the only possible
successful value is the derived filename. -/
theorem C10_never_raises (env : Env) (topic : String) :
    ((env.gemini_key = none ∨ env.serpapi_key = none) →
      generate_presentation env topic = none) ∧
    (env.saveOutcome = Except.error () → generate_presentation env topic = none) ∧
    (generate_presentation env topic = none ∨
      generate_presentation env topic = some (mkFilename topic env.ts)) := by
  refine ⟨?_, ?_, ?_⟩
  · intro h
    rcases h with h | h <;> simp [generate_presentation, h]
  · intro h
    unfold generate_presentation
    by_cases hk : (env.gemini_key.isNone || env.serpapi_key.isNone) = true
    · simp [hk]
    · rcases hdec : decodeContent (generate_llm_content topic env.modelResp) with e | pc <;>
        simp [hk, hdec, save_presentation, h]
  · unfold generate_presentation
    by_cases hk : (env.gemini_key.isNone || env.serpapi_key.isNone) = true
    · simp [hk]
    · rcases hdec : decodeContent (generate_llm_content topic env.modelResp) with e | pc
      · simp [hk, hdec]
      · rcases hs : env.saveOutcome with e' | u <;>
          simp [hk, hdec, save_presentation, hs]

/-- Witness for C10 at a concrete environment with a missing credential. -/
theorem C10_witness : generate_presentation exEnvNoKeys "e" = none :=
  (C10_never_raises exEnvNoKeys "e").1 (Or.inl rfl)

/-- C1 counterexample: for the raw model text `\x7b"key_points": []\x7d` —
well-formed JSON of the wrong shape — `generate_llm_content` returns the
parsed value as-is; the result violates the PresentationContent schema and
the fallback path is not taken. -/
theorem C1_counterexample :
    generate_llm_content "t" (Except.ok exC1Raw) =
      JVal.obj [("key_points", JVal.arr [])] ∧
    schemaValidJson (generate_llm_content "t" (Except.ok exC1Raw)) = false :=
  ⟨rfl, rfl⟩

/-- C1 as amended: `generate_llm_content` performs no schema validation —
whenever the greedy brace span of the (stripped) raw text parses as JSON,
that parsed value is returned as-is, schema-valid or not; only a model
exception, the absence of a brace span, or a JSON parse error trigger the
deterministic fallback, which does satisfy the schema (with `key_points` of
length exactly 4). -/
theorem C1_amended (topic : String) (raw span : List Char) (v : JVal)
    (h1 : greedyBraceMatch (pyStrip raw) = some span)
    (h2 : jsonParse span = some v) :
    generate_llm_content topic (Except.ok raw) = v ∧
    schemaValidJson (_get_fallback_content topic).toJVal = true ∧
    generate_llm_content topic (Except.error ()) = (_get_fallback_content topic).toJVal ∧
    (∀ raw2, greedyBraceMatch (pyStrip raw2) = none →
      generate_llm_content topic (Except.ok raw2) = (_get_fallback_content topic).toJVal) ∧
    (∀ raw3 span3, greedyBraceMatch (pyStrip raw3) = some span3 →
      jsonParse span3 = none →
      generate_llm_content topic (Except.ok raw3) = (_get_fallback_content topic).toJVal) := by
  refine ⟨?_, rfl, rfl, ?_, ?_⟩
  · simp [generate_llm_content, h1, h2]
  · intro raw2 h; simp [generate_llm_content, h]
  · intro raw3 span3 h3 h4; simp [generate_llm_content, h3, h4]

/-- Witness for C1 applying the amended theorem at the concrete raw text
`\x7b"key_points": []\x7d`. -/
theorem C1_witness :
    generate_llm_content "t2" (Except.ok exC1Raw) =
      JVal.obj [("key_points", JVal.arr [])] :=
  (C1_amended "t2" exC1Raw exC1Raw (JVal.obj [("key_points", JVal.arr [])]) rfl rfl).1

/-- C3 counterexample: on schema-valid content (the fallback content, whose
`key_points` has length 4) and with every image resolution failing,
`create_presentation` yields 7 slides, not 6 — title, overview, 4 key-point
slides and conclusion make 7. -/
theorem C3_counterexample :
    (create_presentation (fun _ => none) (_get_fallback_content "x")).length = 7 ∧
    ¬ (create_presentation (fun _ => none) (_get_fallback_content "x")).length = 6 := by
  constructor
  · rfl
  · intro h
    simp [create_presentation, _get_fallback_content] at h

/-- C3 as amended: for every schema-valid content (`key_points` of length 4)
and every image-resolution oracle — including one where every resolution
fails — `create_presentation` returns exactly 7 slides in the fixed order:
title slide, overview slide, the 4 key-point slides in `key_points` order,
then the conclusion slide. -/
theorem C3_amended (resolve : String → Option String) (content : PresentationContent)
    (h : content.key_points.length = 4) :
    (create_presentation resolve content).length = 7 ∧
    (create_presentation resolve content)[0]? =
      some (Slide.titleSlide content.title_slide.title content.title_slide.subtitle) ∧
    (create_presentation resolve content)[1]? =
      some (Slide.contentSlide content.overview.title content.overview.content none) ∧
    (∀ i, i < 4 → (create_presentation resolve content)[2 + i]? =
      (content.key_points[i]?).map
        (fun kp => Slide.contentSlide kp.title kp.content (resolve kp.title))) ∧
    (create_presentation resolve content)[6]? =
      some (Slide.contentSlide content.conclusion.title content.conclusion.content none) := by
  refine ⟨?_, by simp [create_presentation], by simp [create_presentation], ?_, ?_⟩
  · simp [create_presentation, h]
  · intro i hi
    have hi' : i < (content.key_points.map
        (fun kp => Slide.contentSlide kp.title kp.content (resolve kp.title))).length := by
      simp [h]; omega
    simp only [create_presentation, Nat.add_comm 2 i, List.getElem?_cons_succ]
    rw [List.getElem?_append, if_pos hi', List.getElem?_map]
  · have h4 : (content.key_points.map
        (fun kp => Slide.contentSlide kp.title kp.content (resolve kp.title))).length = 4 := by
      simp [h]
    simp only [create_presentation, List.getElem?_cons_succ]
    rw [List.getElem?_append, if_neg (by omega), h4]
    rfl

/-- Witness for C3 applying the amended theorem to the fallback content with
every image resolution failing. -/
theorem C3_witness :
    (create_presentation (fun _ => none) (_get_fallback_content "w")).length = 7 :=
  (C3_amended (fun _ => none) (_get_fallback_content "w") rfl).1

/-- C5 counterexample: when the download answers 200 (the temporary file is
created) but streaming the body raises mid-download, the caught exception
makes `get_image_from_url` return `None`; no path reaches the slide builder
and the temporary file created for that key point still exists after the
slide-building step. -/
theorem C5_counterexample :
    key_point_files exLeakEnv true [] = ["tmp_img"] ∧
    "tmp_img" ∈ key_point_files exLeakEnv true [] := by
  constructor
  · rfl
  · decide

/-- C5 as amended: whenever the download step actually hands a path to the
slide builder, the temporary file behind it is deleted by the step's
`finally` block on every exit of the embed attempt (the resulting file state
is independent of whether embedding raises), and with no mid-stream download
failure the step leaves the temporary-file state unchanged; only a download
that fails mid-stream after creating its temporary file leaks that file. -/
theorem C5_amended (e : ImageEnv) (embedRaises : Bool) (fs : List String)
    (hfresh : e.fresh ∉ fs) :
    (∀ p, (imageFilesAfterDownload e fs).1 = some p →
      p ∉ key_point_files e embedRaises fs) ∧
    key_point_files e true fs = key_point_files e false fs ∧
    (e.streamRaises = false → key_point_files e embedRaises fs = fs) := by
  refine ⟨?_, rfl, ?_⟩
  · intro p hp
    rcases hs : perform_image_search e.searchResp with _ | url
    · simp [imageFilesAfterDownload, hs] at hp
    · rcases hst : e.dlStatus with _ | code
      · simp [imageFilesAfterDownload, get_image_from_url, hs, hst] at hp
      · by_cases h200 : code = 200
        · cases hstream : e.streamRaises with
          | true =>
            simp [imageFilesAfterDownload, get_image_from_url, hs, hst, h200, hstream] at hp
          | false =>
            simp [imageFilesAfterDownload, get_image_from_url, hs, hst, h200, hstream] at hp
            subst hp
            simp [key_point_files, imageFilesAfterDownload, get_image_from_url,
              add_content_slide_files, hs, hst, h200, hstream, List.erase_cons_head]
            exact hfresh
        · simp [imageFilesAfterDownload, get_image_from_url, hs, hst, h200] at hp
  · intro hstream
    rcases hs : perform_image_search e.searchResp with _ | url
    · simp [key_point_files, imageFilesAfterDownload, add_content_slide_files, hs]
    · rcases hst : e.dlStatus with _ | code
      · simp [key_point_files, imageFilesAfterDownload, get_image_from_url,
          add_content_slide_files, hs, hst]
      · by_cases h200 : code = 200
        · simp [key_point_files, imageFilesAfterDownload, get_image_from_url,
            add_content_slide_files, hs, hst, h200, hstream, List.erase_cons_head]
        · simp [key_point_files, imageFilesAfterDownload, get_image_from_url,
            add_content_slide_files, hs, hst, h200]

/-- Witness for C5 applying the amended theorem to a fully successful
download: the temporary file is gone after the step. -/
theorem C5_witness : key_point_files exOkEnv true [] = [] :=
  (C5_amended exOkEnv true [] (List.not_mem_nil _)).2.2 rfl

/-- Helper: `findIdx?` locates the first satisfying element after a
non-satisfying block. -/
theorem findIdx_first {p : Char → Bool} (xs : List Char) (y : Char) (t : List Char)
    (hxs : ∀ x ∈ xs, p x = false) (hy : p y = true) :
    (xs ++ y :: t).findIdx? p = some xs.length := by
  induction xs with
  | nil => simp [hy]
  | cons a as ih =>
    have ha := hxs a (List.mem_cons_self a as)
    simp [List.findIdx?_cons, ha, List.findIdx?_succ,
      ih (fun x hx => hxs x (List.mem_cons_of_mem a hx))]

/-- Helper: taking the length of the left part plus `k` from an append. -/
theorem take_append_exact {α : Type} (l₁ l₂ : List α) (k : Nat) :
    (l₁ ++ l₂).take (l₁.length + k) = l₁ ++ l₂.take k := by
  induction l₁ with
  | nil => simp
  | cons x xs ih => simp [List.take_succ_cons, Nat.succ_add, ih]

/-- Helper: the balanced extractor skips a block without opening braces. -/
theorem balancedExtract_append_left (pre t : List Char)
    (hpre : ∀ x ∈ pre, x ≠ '{') :
    balancedExtract (pre ++ t) = balancedExtract t := by
  induction pre with
  | nil => rfl
  | cons x xs ih =>
    have hx := hpre x (List.mem_cons_self x xs)
    simp only [List.cons_append, balancedExtract]
    rw [if_neg hx]
    exact ih (fun y hy => hpre y (List.mem_cons_of_mem x hy))

/-- Helper: everything the balanced extractor returns starts with an opening
brace. -/
theorem balancedExtract_shape {s v : List Char} (h : balancedExtract s = some v) :
    ∃ r, v = '{' :: r := by
  induction s with
  | nil => simp [balancedExtract] at h
  | cons x xs ih =>
    by_cases hx : x = '{'
    · subst hx
      simp only [balancedExtract, if_pos rfl] at h
      cases hscan : scanBalanced 1 xs with
      | none => rw [hscan] at h; simp at h
      | some r =>
        rw [hscan] at h
        simp at h
        exact ⟨r, h.symm⟩
    · simp only [balancedExtract] at h
      rw [if_neg hx] at h
      exact ih h

/-- C2 counterexample: on the raw text `\x7ba: 1\x7d note \x7bb\x7d` the
extractor embedded from the source (the greedy `re.search` match) returns
the span from the first opening to the last closing brace, not the first
balanced object `\x7ba: 1\x7d` that the claim promises. -/
theorem C2_counterexample :
    greedyBraceMatch exC2 = some exC2 ∧
    balancedExtract exC2 = some ('{' :: ("a: 1".data ++ ['}'])) ∧
    greedyBraceMatch exC2 ≠ balancedExtract exC2 := by
  refine ⟨by decide, by decide, by decide⟩

/-- C2 as amended: the extractor is the greedy first-opening-brace to
last-closing-brace match; for every input where explanatory text containing
a further closing brace follows the first complete JSON object — any span
the balanced scanner accepts, arbitrarily nested — the extractor returns a
strictly longer span extending to the last closing brace, of which that
first balanced object is a proper prefix.  The input is decomposed as
`pre ++ b ++ (c ++ closing-brace :: d)`: prose without opening braces, the
first complete object `b`, arbitrary following text `c`, and the input's
last closing brace with its closing-brace-free tail `d`. -/
theorem C2_amended (pre b c d : List Char)
    (hpre : ∀ x ∈ pre, x ≠ '{')
    (hb : balancedExtract (b ++ (c ++ '}' :: d)) = some b)
    (hd : ∀ x ∈ d, x ≠ '}') :
    balancedExtract (pre ++ b ++ (c ++ '}' :: d)) = some b ∧
    greedyBraceMatch (pre ++ b ++ (c ++ '}' :: d)) = some (b ++ (c ++ ['}'])) ∧
    b <+: b ++ (c ++ ['}']) ∧
    greedyBraceMatch (pre ++ b ++ (c ++ '}' :: d)) ≠
      balancedExtract (pre ++ b ++ (c ++ '}' :: d)) := by
  obtain ⟨b₂, rfl⟩ := balancedExtract_shape hb
  have hbal : balancedExtract (pre ++ ('{' :: b₂) ++ (c ++ '}' :: d)) =
      some ('{' :: b₂) := by
    rw [List.append_assoc, balancedExtract_append_left pre _ hpre, hb]
  have hfirst : (pre ++ ('{' :: b₂) ++ (c ++ '}' :: d)).findIdx? (· = '{') =
      some pre.length := by
    have hform : pre ++ ('{' :: b₂) ++ (c ++ '}' :: d) =
        pre ++ '{' :: (b₂ ++ (c ++ '}' :: d)) := by simp
    rw [hform, findIdx_first pre '{' _
      (fun x hx => by simp [hpre x hx]) (by simp)]
  have hlen : (pre ++ ('{' :: b₂) ++ (c ++ '}' :: d)).length =
      pre.length + b₂.length + c.length + d.length + 2 := by
    simp only [List.length_append, List.length_cons]
    omega
  have hlast : lastIdxOf '}' (pre ++ ('{' :: b₂) ++ (c ++ '}' :: d)) =
      some (pre.length + b₂.length + c.length + 1) := by
    unfold lastIdxOf
    have hrev : (pre ++ ('{' :: b₂) ++ (c ++ '}' :: d)).reverse =
        d.reverse ++ '}' :: (c.reverse ++ (b₂.reverse ++ ('{' :: pre.reverse))) := by
      simp
    rw [hrev, findIdx_first d.reverse '}' _
      (fun x hx => by simp [hd x (List.mem_reverse.mp hx)]) (by simp)]
    simp only [List.length_reverse, hlen, Option.some.injEq]
    omega
  have hgre : greedyBraceMatch (pre ++ ('{' :: b₂) ++ (c ++ '}' :: d)) =
      some (('{' :: b₂) ++ (c ++ ['}'])) := by
    unfold greedyBraceMatch
    rw [hfirst, hlast]
    have h0 : pre.length < pre.length + b₂.length + c.length + 1 := by omega
    simp only [h0, if_true]
    rw [show pre.length + b₂.length + c.length + 1 - pre.length + 1 =
      (b₂.length + 1) + (c.length + 1) by omega]
    rw [List.append_assoc, List.drop_left]
    rw [show (b₂.length + 1) + (c.length + 1) =
      ('{' :: b₂).length + (c.length + 1) by simp]
    rw [take_append_exact, take_append_exact c ('}' :: d) 1]
    rfl
  refine ⟨hbal, hgre, ⟨c ++ ['}'], rfl⟩, ?_⟩
  rw [hbal, hgre]
  intro hcontra
  simp only [Option.some.injEq] at hcontra
  have hl := congrArg List.length hcontra
  simp only [List.length_cons, List.length_append, List.length_singleton] at hl
  omega

/-- Witness for C2 applying the amended theorem to a nested first object
`\x7ba: \x7bx: 1\x7d\x7d`, preceded by prose and followed by prose with a
stray closing brace. -/
theorem C2_witness :
    greedyBraceMatch ("json: ".data ++ exNested ++ (" done ".data ++ '}' :: " rest".data)) ≠
      balancedExtract ("json: ".data ++ exNested ++ (" done ".data ++ '}' :: " rest".data)) :=
  (C2_amended "json: ".data exNested " done ".data " rest".data
    (by decide) (by decide) (by decide)).2.2.2

/-- Helper: every code point emitted by the whitespace collapser is an
underscore or a non-whitespace code point of the input. -/
theorem collapseAux_mem : ∀ {l : List Nat} {b : Bool} {n : Nat}, n ∈ collapseAux b l →
    n = 95 ∨ (n ∈ l ∧ isSpaceCode n = false) := by
  intro l
  induction l with
  | nil => intro b n h; simp [collapseAux] at h
  | cons m ms ih =>
    intro b n h
    by_cases hm : isSpaceCode m = true
    · simp only [collapseAux] at h
      rw [if_pos hm] at h
      rcases List.mem_append.mp h with h1 | h2
      · left
        cases b with
        | false => simpa using h1
        | true => simp at h1
      · rcases ih h2 with h95 | ⟨hmem, hsp⟩
        · exact Or.inl h95
        · exact Or.inr ⟨List.mem_cons_of_mem m hmem, hsp⟩
    · simp only [collapseAux] at h
      rw [if_neg hm] at h
      rcases List.mem_cons.mp h with rfl | h2
      · exact Or.inr ⟨List.mem_cons_self _ _, by simpa using hm⟩
      · rcases ih h2 with h95 | ⟨hmem, hsp⟩
        · exact Or.inl h95
        · exact Or.inr ⟨List.mem_cons_of_mem m hmem, hsp⟩

/-- Helper: the whitespace collapser is the identity on whitespace-free
input. -/
theorem collapseAux_id : ∀ {l : List Nat}, (∀ n ∈ l, isSpaceCode n = false) →
    ∀ b, collapseAux b l = l := by
  intro l
  induction l with
  | nil => intro _ b; rfl
  | cons m ms ih =>
    intro h b
    have hm := h m (List.mem_cons_self m ms)
    simp only [collapseAux]
    rw [if_neg (by simp [hm])]
    rw [ih (fun n hn => h n (List.mem_cons_of_mem m hn)) false]

/-- Helper: every code point of a sanitised topic is an underscore, a
lowercase ASCII letter, or an ASCII digit. -/
theorem sanitize_chars {t : List Nat} {m : Nat} (h : m ∈ sanitize t) :
    m = 95 ∨ (97 ≤ m ∧ m ≤ 122) ∨ (48 ≤ m ∧ m ≤ 57) := by
  rcases List.mem_map.mp h with ⟨n, hn, rfl⟩
  rcases collapseAux_mem hn with h95 | ⟨hmem, hsp⟩
  · subst h95
    left
    rfl
  · have hk := (List.mem_filter.mp hmem).2
    right
    simp only [keepCode, isAlphaCode, isDigitCode, isSpaceCode, Bool.or_eq_true,
      decide_eq_true_eq] at hk
    have hsp' : ¬(n = 32 ∨ n = 9 ∨ n = 10 ∨ n = 13 ∨ n = 11 ∨ n = 12) := by
      simpa [isSpaceCode] using hsp
    unfold lowerCode
    by_cases hup : 65 ≤ n ∧ n ≤ 90
    · rw [if_pos hup]
      left
      omega
    · rw [if_neg hup]
      omega

/-- C4 counterexample: sanitising the topic `"a b"` (code points
`[97, 32, 98]`) yields `"a_b"` (`[97, 95, 98]`), but sanitising that again
strips the underscore, yielding `"ab"` (`[97, 98]`) — the sanitisation is
not idempotent. -/
theorem C4_counterexample :
    sanitize [97, 32, 98] = [97, 95, 98] ∧
    sanitize (sanitize [97, 32, 98]) = [97, 98] ∧
    sanitize (sanitize [97, 32, 98]) ≠ sanitize [97, 32, 98] :=
  ⟨by decide, by decide, by decide⟩

/-- C4 as amended: re-sanitising a sanitised topic strips exactly the
underscores that whitespace collapsing introduced; hence the sanitisation is
idempotent precisely on those topics whose sanitised form contains no
underscore. -/
theorem C4_amended (t : List Nat) :
    sanitize (sanitize t) = (sanitize t).filter (fun n => n ≠ 95) ∧
    (sanitize (sanitize t) = sanitize t ↔ 95 ∉ sanitize t) := by
  have hchars : ∀ m ∈ sanitize t,
      m = 95 ∨ (97 ≤ m ∧ m ≤ 122) ∨ (48 ≤ m ∧ m ≤ 57) :=
    fun _ hm => sanitize_chars hm
  have hfe : (sanitize t).filter keepCode =
      (sanitize t).filter (fun n => n ≠ 95) := by
    apply List.filter_congr
    intro m hm
    rcases hchars m hm with h95 | h
    · subst h95; decide
    · have h1 : keepCode m = true := by
        simp only [keepCode, isAlphaCode, isDigitCode, isSpaceCode,
          Bool.or_eq_true, decide_eq_true_eq]
        omega
      have h2 : decide (m ≠ 95) = true := by
        simp only [decide_eq_true_eq]
        omega
      rw [h1, h2]
  have hnosp : ∀ m ∈ (sanitize t).filter (fun n => n ≠ 95),
      isSpaceCode m = false := by
    intro m hm
    have hm' := List.mem_filter.mp hm
    rcases hchars m hm'.1 with h95 | h
    · exact absurd h95 (by simpa using hm'.2)
    · simp only [isSpaceCode, decide_eq_false_iff_not]
      omega
  have hlow : ∀ m ∈ (sanitize t).filter (fun n => n ≠ 95),
      lowerCode m = m := by
    intro m hm
    have hm' := List.mem_filter.mp hm
    rcases hchars m hm'.1 with h95 | h
    · subst h95; rfl
    · unfold lowerCode
      rw [if_neg (by omega)]
  have hmain : sanitize (sanitize t) = (sanitize t).filter (fun n => n ≠ 95) := by
    calc sanitize (sanitize t)
        = (collapseSpaces ((sanitize t).filter keepCode)).map lowerCode := rfl
      _ = (collapseSpaces ((sanitize t).filter (fun n => n ≠ 95))).map lowerCode := by
          rw [hfe]
      _ = ((sanitize t).filter (fun n => n ≠ 95)).map lowerCode := by
          unfold collapseSpaces
          rw [collapseAux_id hnosp false]
      _ = (sanitize t).filter (fun n => n ≠ 95) := by
          rw [List.map_congr_left hlow]
          simp
  refine ⟨hmain, ?_⟩
  rw [hmain]
  constructor
  · intro he hin
    have := List.filter_eq_self.mp he 95 hin
    simp at this
  · intro hnin
    apply List.filter_eq_self.mpr
    intro a ha
    simp only [decide_eq_true_eq]
    intro heq
    exact hnin (heq ▸ ha)

end PPTGen
